import Mathlib

/-!
Verification of the interception layer in `src/converter.ts` of the
`ts-mongo` repository: a Proxy wrapping a raw collection handle that
rewrites arguments and results of a fixed set of operations through five
user-supplied transform functions and passes every other property access
through untouched.

Shallow embedding choices:
* A deferred (promise-style) result is modelled as `Except E α`: the
  resolved value or the rejection payload.  JavaScript `p.then(f)` with a
  plain callback `f` is `Except.map f p`: the callback runs on the
  resolved value and a rejection skips it and propagates.
* The find cursor is modelled as `FindCursor R := Nat → Option R`: an
  opaque lazy sequence, queried one position at a time on demand.
* The collection handle is a structure of the intercepted methods plus a
  map `others : String → μ` holding every other member (the pass-through
  surface), with `μ` an abstract member type.
* The Proxy `get` trap is embedded twice, from the same source switch:
  `proxyGet` works at the level of property names (returning a tagged
  member, as the trap does), and `convertRawCollection` packages the same
  closures as a record (the typed view the rest of the program uses).
-/

/-- A deferred result: resolution with a value of `α` or rejection with an
error payload of `E`. -/
def Promise (E α : Type) : Type := Except E α

/-- JavaScript `p.then(f)` for a plain (non-promise-returning) callback
`f`: apply `f` to the resolved value; a rejection propagates unchanged. -/
def Promise.then (p : Promise E α) (f : α → β) : Promise E β :=
  Except.map f p

/-- A resolved promise. -/
def Promise.resolved (a : α) : Promise E α := Except.ok a

/-- A rejected promise. -/
def Promise.rejected (e : E) : Promise E α := Except.error e

/-- Modelled from the spec: the multi-document find result, an "opaque
lazy sequence the core must map over" (`FindCursor` of the driver, not
under `src/`).  Position `n` holds the `n`-th produced document, `none`
once the sequence is exhausted at that position. -/
def FindCursor (R : Type) : Type := Nat → Option R

/-- The cursor's `map`: apply `f` to each element lazily, on demand. -/
def FindCursor.map (f : α → β) (c : FindCursor α) : FindCursor β :=
  fun n => (c n).map f

/-- Consume the first `k` positions of a cursor. -/
def FindCursor.take (k : Nat) (c : FindCursor α) : List (Option α) :=
  (List.range k).map c

/-- Modelled from the spec: the modify-result of a find-and-X operation
(`TsModifyResult` of `src/types/result`, not under `src/`): "carrying an
optional affected document plus auxiliary metadata (counts, flags)".
`value` is the optional document, `rest` the sibling fields. -/
structure TsModifyResult (R Aux : Type) : Type where
  value : Option R
  rest : Aux
deriving DecidableEq, Repr

/-- Modelled from the spec: the collection handle (`TsRawCollection` of
`src/collection`, not under `src/`): "an opaque capability offering a
fixed set of named operations".  The fields are the operations the
converter's switch intercepts, each with its native argument/result
shape; `others` holds every other member of the handle (the pass-through
surface), of abstract member type `μ`. -/
structure TsRawCollection (Doc Upd Rep Fil R Opts E IR IMR UR RR DR Aux μ : Type) :
    Type where
  insertOne : Doc → Opts → Promise E IR
  insertMany : List Doc → Opts → Promise E IMR
  updateOne : Fil → Upd → Opts → Promise E UR
  updateMany : Fil → Upd → Opts → Promise E UR
  replaceOne : Fil → Rep → Opts → Promise E RR
  deleteOne : Fil → Opts → Promise E DR
  deleteMany : Fil → Opts → Promise E DR
  findOne : Fil → Opts → Promise E (Option R)
  find : Fil → Option Opts → FindCursor R
  findOneAndDelete : Fil → Opts → Promise E (TsModifyResult R Aux)
  findOneAndReplace : Fil → Rep → Opts → Promise E (TsModifyResult R Aux)
  findOneAndUpdate : Fil → Upd → Opts → Promise E (TsModifyResult R Aux)
  insert : List Doc → Opts → Promise E IMR
  update : Fil → Upd → Opts → Promise E UR
  others : String → μ

/-- The converter record of `src/converter.ts` (type `Converter`): the
five transform functions supplied at wrap time.  Schema-1 is the public
(wrapped) shape, schema-0 the underlying shape. -/
structure Converter (Doc0 Doc1 Upd0 Upd1 Rep0 Rep1 Fil R : Type) : Type where
  preInsert : Doc1 → Doc0
  preUpdate : Upd1 → Upd0
  preReplace : Rep1 → Rep0
  postFind : R → R
  deleteFilter : Fil → Fil

/-- `middlewareMethods` of `src/converter.ts`, lines 6-46: the full list
of method names of the raw collection type. -/
def middlewareMethods : List String :=
  ["insertOne", "insertMany", "bulkWrite", "updateOne", "replaceOne",
   "updateMany", "deleteOne", "deleteMany", "rename", "drop", "findOne",
   "find", "estimatedDocumentCount", "countDocuments", "distinct",
   "findOneAndDelete", "findOneAndReplace", "findOneAndUpdate",
   "aggregate", "watch", "mapReduce", "initializeUnorderedBulkOp",
   "initializeOrderedBulkOp", "insert", "update", "remove", "count",
   "createIndex", "createIndexes", "dropIndex", "dropIndexes",
   "listIndexes", "indexExists", "indexInformation", "indexes", "stats"]

/-- The names the Proxy `get` trap actually intercepts: the `case` labels
of the switch in `convertRawCollection`, lines 141-246. -/
def interceptedMethods : List String :=
  ["insertOne", "insertMany", "updateOne", "updateMany", "replaceOne",
   "findOne", "deleteOne", "deleteMany", "find", "findOneAndDelete",
   "findOneAndReplace", "findOneAndUpdate", "insert", "update"]

/-- The `convert` helper of `src/converter.ts`, lines 130-137: look up the
old method and run the converter on it. -/
def convert (oldMethod : α) (converter : α → β) : β :=
  converter oldMethod

/-- The `convertModifyResult` helper of `src/converter.ts`, lines 125-128:
`value ? postFind(value) : value` with the sibling fields spread through
unchanged.  A document is an object, hence truthy; a missing document is
`null`/`undefined`, hence falsy: the test is `Option.map`. -/
def convertModifyResult (postFind : R → R) (m : TsModifyResult R Aux) :
    TsModifyResult R Aux :=
  ⟨m.value.map postFind, m.rest⟩

/-- A member of the wrapped handle, as returned by the Proxy `get` trap:
one tagged constructor per intercepted method shape (typed over the
public schema-1 shapes), and `other` for every pass-through member. -/
inductive Member (Doc Upd Rep Fil R Opts E IR IMR UR RR DR Aux μ : Type) : Type where
  | insertOneF : (Doc → Opts → Promise E IR) → Member Doc Upd Rep Fil R Opts E IR IMR UR RR DR Aux μ
  | insertManyF : (List Doc → Opts → Promise E IMR) → Member Doc Upd Rep Fil R Opts E IR IMR UR RR DR Aux μ
  | updateOneF : (Fil → Upd → Opts → Promise E UR) → Member Doc Upd Rep Fil R Opts E IR IMR UR RR DR Aux μ
  | updateManyF : (Fil → Upd → Opts → Promise E UR) → Member Doc Upd Rep Fil R Opts E IR IMR UR RR DR Aux μ
  | replaceOneF : (Fil → Rep → Opts → Promise E RR) → Member Doc Upd Rep Fil R Opts E IR IMR UR RR DR Aux μ
  | findOneF : (Fil → Opts → Promise E (Option R)) → Member Doc Upd Rep Fil R Opts E IR IMR UR RR DR Aux μ
  | deleteOneF : (Fil → Opts → Promise E DR) → Member Doc Upd Rep Fil R Opts E IR IMR UR RR DR Aux μ
  | deleteManyF : (Fil → Opts → Promise E DR) → Member Doc Upd Rep Fil R Opts E IR IMR UR RR DR Aux μ
  | findF : (Fil → Option Opts → FindCursor R) → Member Doc Upd Rep Fil R Opts E IR IMR UR RR DR Aux μ
  | findOneAndDeleteF : (Fil → Opts → Promise E (TsModifyResult R Aux)) → Member Doc Upd Rep Fil R Opts E IR IMR UR RR DR Aux μ
  | findOneAndReplaceF : (Fil → Rep → Opts → Promise E (TsModifyResult R Aux)) → Member Doc Upd Rep Fil R Opts E IR IMR UR RR DR Aux μ
  | findOneAndUpdateF : (Fil → Upd → Opts → Promise E (TsModifyResult R Aux)) → Member Doc Upd Rep Fil R Opts E IR IMR UR RR DR Aux μ
  | insertF : (List Doc → Opts → Promise E IMR) → Member Doc Upd Rep Fil R Opts E IR IMR UR RR DR Aux μ
  | updateF : (Fil → Upd → Opts → Promise E UR) → Member Doc Upd Rep Fil R Opts E IR IMR UR RR DR Aux μ
  | other : μ → Member Doc Upd Rep Fil R Opts E IR IMR UR RR DR Aux μ

/-- The Proxy `get` trap of `convertRawCollection`, lines 140-250,
embedded at the level of property names: the switch on `prop`, each case
building its replacement closure through `convert`, and the default
branch returning `target[prop]` unchanged. -/
def proxyGet
    (target : TsRawCollection Doc0 Upd0 Rep0 Fil R Opts E IR IMR UR RR DR Aux μ)
    (t : Converter Doc0 Doc1 Upd0 Upd1 Rep0 Rep1 Fil R) (prop : String) :
    Member Doc1 Upd1 Rep1 Fil R Opts E IR IMR UR RR DR Aux μ :=
  match prop with
  | "insertOne" =>
      .insertOneF (convert target.insertOne
        (fun oldMethod => fun doc options => oldMethod (t.preInsert doc) options))
  | "insertMany" =>
      .insertManyF (convert target.insertMany
        (fun oldMethod => fun docs options => oldMethod (docs.map t.preInsert) options))
  | "updateOne" =>
      .updateOneF (convert target.updateOne
        (fun oldMethod => fun filter update options =>
          oldMethod filter (t.preUpdate update) options))
  | "updateMany" =>
      .updateManyF (convert target.updateMany
        (fun oldMethod => fun filter update options =>
          oldMethod filter (t.preUpdate update) options))
  | "replaceOne" =>
      .replaceOneF (convert target.replaceOne
        (fun oldMethod => fun filter replacement options =>
          oldMethod filter (t.preReplace replacement) options))
  | "findOne" =>
      .findOneF (convert target.findOne
        (fun oldMethod => fun filter options =>
          (oldMethod filter options).then
            (fun result => match result with
              | some r => some (t.postFind r)
              | none => none)))
  | "deleteOne" =>
      .deleteOneF (convert target.deleteOne
        (fun oldMethod => fun filter options =>
          oldMethod (t.deleteFilter filter) options))
  | "deleteMany" =>
      .deleteManyF (convert target.deleteMany
        (fun oldMethod => fun filter options =>
          oldMethod (t.deleteFilter filter) options))
  | "find" =>
      .findF (convert target.find
        (fun oldMethod => fun filter options =>
          (oldMethod filter options).map t.postFind))
  | "findOneAndDelete" =>
      .findOneAndDeleteF (convert target.findOneAndDelete
        (fun oldMethod => fun filter options =>
          (oldMethod filter options).then (convertModifyResult t.postFind)))
  | "findOneAndReplace" =>
      .findOneAndReplaceF (convert target.findOneAndReplace
        (fun oldMethod => fun filter replacement options =>
          (oldMethod filter (t.preReplace replacement) options).then
            (convertModifyResult t.postFind)))
  | "findOneAndUpdate" =>
      .findOneAndUpdateF (convert target.findOneAndUpdate
        (fun oldMethod => fun filter update options =>
          (oldMethod filter (t.preUpdate update) options).then
            (convertModifyResult t.postFind)))
  | "insert" =>
      .insertF (convert target.insert
        (fun oldMethod => fun docs options => oldMethod (docs.map t.preInsert) options))
  | "update" =>
      .updateF (convert target.update
        (fun oldMethod => fun filter update options =>
          oldMethod filter (t.preUpdate update) options))
  | _ => .other (target.others prop)

/-- `convertRawCollection` of `src/converter.ts`, lines 69-255, as the
typed view of the proxy: each intercepted method is the closure the
corresponding switch case builds, and every other member is the target's
member unchanged (the default branch). -/
def convertRawCollection
    (collection : TsRawCollection Doc0 Upd0 Rep0 Fil R Opts E IR IMR UR RR DR Aux μ)
    (t : Converter Doc0 Doc1 Upd0 Upd1 Rep0 Rep1 Fil R) :
    TsRawCollection Doc1 Upd1 Rep1 Fil R Opts E IR IMR UR RR DR Aux μ where
  insertOne := convert collection.insertOne
    (fun oldMethod => fun doc options => oldMethod (t.preInsert doc) options)
  insertMany := convert collection.insertMany
    (fun oldMethod => fun docs options => oldMethod (docs.map t.preInsert) options)
  updateOne := convert collection.updateOne
    (fun oldMethod => fun filter update options =>
      oldMethod filter (t.preUpdate update) options)
  updateMany := convert collection.updateMany
    (fun oldMethod => fun filter update options =>
      oldMethod filter (t.preUpdate update) options)
  replaceOne := convert collection.replaceOne
    (fun oldMethod => fun filter replacement options =>
      oldMethod filter (t.preReplace replacement) options)
  findOne := convert collection.findOne
    (fun oldMethod => fun filter options =>
      (oldMethod filter options).then
        (fun result => match result with
          | some r => some (t.postFind r)
          | none => none))
  deleteOne := convert collection.deleteOne
    (fun oldMethod => fun filter options => oldMethod (t.deleteFilter filter) options)
  deleteMany := convert collection.deleteMany
    (fun oldMethod => fun filter options => oldMethod (t.deleteFilter filter) options)
  find := convert collection.find
    (fun oldMethod => fun filter options => (oldMethod filter options).map t.postFind)
  findOneAndDelete := convert collection.findOneAndDelete
    (fun oldMethod => fun filter options =>
      (oldMethod filter options).then (convertModifyResult t.postFind))
  findOneAndReplace := convert collection.findOneAndReplace
    (fun oldMethod => fun filter replacement options =>
      (oldMethod filter (t.preReplace replacement) options).then
        (convertModifyResult t.postFind))
  findOneAndUpdate := convert collection.findOneAndUpdate
    (fun oldMethod => fun filter update options =>
      (oldMethod filter (t.preUpdate update) options).then
        (convertModifyResult t.postFind))
  insert := convert collection.insert
    (fun oldMethod => fun docs options => oldMethod (docs.map t.preInsert) options)
  update := convert collection.update
    (fun oldMethod => fun filter update options =>
      oldMethod filter (t.preUpdate update) options)
  others := collection.others

/-- A call-recording instantiation of the handle: every write-style
method resolves with the singleton list of the arguments it received.
The resolved value of a wrapped call therefore exhibits both the exact
call count (list length) and the exact arguments delivered to the
underlying handle. -/
def recorderColl (Doc Upd Rep Fil R Opts : Type) :
    TsRawCollection Doc Upd Rep Fil R Opts Empty (List (Doc × Opts))
      (List (List Doc × Opts)) (List (Fil × Upd × Opts))
      (List (Fil × Rep × Opts)) (List (Fil × Opts)) Unit Unit where
  insertOne := fun d o => Promise.resolved [(d, o)]
  insertMany := fun ds o => Promise.resolved [(ds, o)]
  updateOne := fun f u o => Promise.resolved [(f, u, o)]
  updateMany := fun f u o => Promise.resolved [(f, u, o)]
  replaceOne := fun f r o => Promise.resolved [(f, r, o)]
  deleteOne := fun f o => Promise.resolved [(f, o)]
  deleteMany := fun f o => Promise.resolved [(f, o)]
  findOne := fun _ _ => Promise.resolved none
  find := fun _ _ => fun _ => none
  findOneAndDelete := fun _ _ => Promise.resolved ⟨none, ()⟩
  findOneAndReplace := fun _ _ _ => Promise.resolved ⟨none, ()⟩
  findOneAndUpdate := fun _ _ _ => Promise.resolved ⟨none, ()⟩
  insert := fun ds o => Promise.resolved [(ds, o)]
  update := fun f u o => Promise.resolved [(f, u, o)]
  others := fun _ => ()

/-- A concrete sample handle over `Nat`, used to instantiate theorems
with hypotheses at explicit inputs. -/
def sampleColl :
    TsRawCollection Nat Nat Nat Nat Nat Nat Nat Nat Nat Nat Nat Nat Nat Nat where
  insertOne := fun d o => Promise.resolved (d + o)
  insertMany := fun ds o => Promise.resolved (ds.foldl Nat.add o)
  updateOne := fun f u o => Promise.resolved (f + u + o)
  updateMany := fun f u o => Promise.resolved (f * u + o)
  replaceOne := fun f r o => Promise.resolved (f + r * o)
  deleteOne := fun f o => Promise.resolved (f - o)
  deleteMany := fun f o => Promise.resolved (f * o)
  findOne := fun f o => Promise.resolved (some (f + o))
  find := fun f _ => fun n => some (f + n)
  findOneAndDelete := fun f o => Promise.resolved ⟨some (f + o), f⟩
  findOneAndReplace := fun f r o => Promise.resolved ⟨some (f + r), o⟩
  findOneAndUpdate := fun f u o => Promise.resolved ⟨some (f + u), o⟩
  insert := fun ds o => Promise.resolved (ds.length + o)
  update := fun f u o => Promise.resolved (f + u + o)
  others := fun s => s.length

/-- A sample handle whose `findOne` resolves to the not-found signal and
whose find-and-X results carry no document. -/
def sampleCollEmpty :
    TsRawCollection Nat Nat Nat Nat Nat Nat Nat Nat Nat Nat Nat Nat Nat Nat where
  insertOne := fun d o => Promise.resolved (d + o)
  insertMany := fun ds o => Promise.resolved (ds.foldl Nat.add o)
  updateOne := fun f u o => Promise.resolved (f + u + o)
  updateMany := fun f u o => Promise.resolved (f * u + o)
  replaceOne := fun f r o => Promise.resolved (f + r * o)
  deleteOne := fun f o => Promise.resolved (f - o)
  deleteMany := fun f o => Promise.resolved (f * o)
  findOne := fun _ _ => Promise.resolved none
  find := fun _ _ => fun _ => none
  findOneAndDelete := fun f _ => Promise.resolved ⟨none, f⟩
  findOneAndReplace := fun _ _ o => Promise.resolved ⟨none, o⟩
  findOneAndUpdate := fun _ _ o => Promise.resolved ⟨none, o⟩
  insert := fun ds o => Promise.resolved (ds.length + o)
  update := fun f u o => Promise.resolved (f + u + o)
  others := fun s => s.length

/-- A sample handle that rejects every deferred operation with error
code 7. -/
def sampleCollFailing :
    TsRawCollection Nat Nat Nat Nat Nat Nat Nat Nat Nat Nat Nat Nat Nat Nat where
  insertOne := fun _ _ => Promise.rejected 7
  insertMany := fun _ _ => Promise.rejected 7
  updateOne := fun _ _ _ => Promise.rejected 7
  updateMany := fun _ _ _ => Promise.rejected 7
  replaceOne := fun _ _ _ => Promise.rejected 7
  deleteOne := fun _ _ => Promise.rejected 7
  deleteMany := fun _ _ => Promise.rejected 7
  findOne := fun _ _ => Promise.rejected 7
  find := fun _ _ => fun _ => none
  findOneAndDelete := fun _ _ => Promise.rejected 7
  findOneAndReplace := fun _ _ _ => Promise.rejected 7
  findOneAndUpdate := fun _ _ _ => Promise.rejected 7
  insert := fun _ _ => Promise.rejected 7
  update := fun _ _ _ => Promise.rejected 7
  others := fun s => s.length

/-- A sample converter over `Nat`. -/
def sampleConv : Converter Nat Nat Nat Nat Nat Nat Nat Nat where
  preInsert := fun d => d + 1
  preUpdate := fun u => u * 2
  preReplace := fun r => r + 3
  postFind := fun x => x * 10
  deleteFilter := fun f => f + 5

/-- A second sample converter over `Nat`, for composition. -/
def sampleConv2 : Converter Nat Nat Nat Nat Nat Nat Nat Nat where
  preInsert := fun d => d * 7
  preUpdate := fun u => u + 9
  preReplace := fun r => r * 4
  postFind := fun x => x + 100
  deleteFilter := fun f => f * 3

/-- C1: For every operation name not in the intercepted set, the Proxy
`get` trap falls to the default branch and returns the underlying
handle's original member unchanged; an invocation of that member is an
invocation of the very same member of the underlying handle, so argument
flow, call count and result are those of the underlying handle. -/
theorem passthrough_identity
    (target : TsRawCollection Doc0 Upd0 Rep0 Fil R Opts E IR IMR UR RR DR Aux μ)
    (t : Converter Doc0 Doc1 Upd0 Upd1 Rep0 Rep1 Fil R) (prop : String)
    (h : prop ∉ interceptedMethods) :
    proxyGet target t prop = Member.other (target.others prop) := by
  simp only [interceptedMethods, List.mem_cons, List.not_mem_nil, or_false,
    not_or] at h
  obtain ⟨h1, h2, h3, h4, h5, h6, h7, h8, h9, h10, h11, h12, h13, h14⟩ := h
  unfold proxyGet
  split <;> simp_all

/-- Witness for C1 at the concrete non-intercepted name `bulkWrite`. -/
theorem passthrough_identity_witness :
    "bulkWrite" ∉ interceptedMethods ∧
      proxyGet sampleColl sampleConv "bulkWrite"
        = Member.other (sampleColl.others "bulkWrite") :=
  ⟨by decide, passthrough_identity sampleColl sampleConv "bulkWrite" (by decide)⟩

/-- C2: `insertOne` on the wrapped handle calls the underlying
`insertOne` with `preInsert doc` and the unchanged options and returns
the underlying result unchanged; with the call-recording handle the
resolved trace is exactly one call, carrying the transformed document.
`insertMany` and the legacy `insert` alias deliver `preInsert` mapped
over the document list, preserving order (elementwise image) and
length. -/
theorem insert_applies_preInsert
    (collection : TsRawCollection Doc0 Upd0 Rep0 Fil R Opts E IR IMR UR RR DR Aux μ)
    (t : Converter Doc0 Doc1 Upd0 Upd1 Rep0 Rep1 Fil R)
    (doc : Doc1) (docs : List Doc1) (options : Opts) :
    ((convertRawCollection collection t).insertOne doc options
        = collection.insertOne (t.preInsert doc) options)
    ∧ ((convertRawCollection collection t).insertMany docs options
        = collection.insertMany (docs.map t.preInsert) options)
    ∧ ((convertRawCollection collection t).insert docs options
        = collection.insert (docs.map t.preInsert) options)
    ∧ ((convertRawCollection (recorderColl Doc0 Upd0 Rep0 Fil R Opts) t).insertOne
          doc options = Promise.resolved [(t.preInsert doc, options)])
    ∧ ((docs.map t.preInsert).length = docs.length)
    ∧ (∀ i : Fin docs.length,
        (docs.map t.preInsert).get (Fin.cast (docs.length_map t.preInsert).symm i)
          = t.preInsert (docs.get i)) := by
  refine ⟨rfl, rfl, rfl, rfl, docs.length_map t.preInsert, ?_⟩
  intro i
  simp [List.get_eq_getElem]

/-- C3: when the underlying `findOne` resolves to a document `S`, the
wrapped `findOne` resolves to `postFind S`; when it resolves to the
not-found signal, the wrapped `findOne` resolves to the not-found signal
for every choice of `postFind` (in particular the answer does not depend
on `postFind`, which is therefore never consulted). -/
theorem findOne_applies_postFind
    (collection : TsRawCollection Doc0 Upd0 Rep0 Fil R Opts E IR IMR UR RR DR Aux μ)
    (t : Converter Doc0 Doc1 Upd0 Upd1 Rep0 Rep1 Fil R)
    (filter : Fil) (options : Opts) :
    (∀ S, collection.findOne filter options = Promise.resolved (some S) →
      (convertRawCollection collection t).findOne filter options
        = Promise.resolved (some (t.postFind S)))
    ∧ (collection.findOne filter options = Promise.resolved none →
      (convertRawCollection collection t).findOne filter options
        = Promise.resolved none) := by
  constructor
  · intro S h
    simp only [convertRawCollection, convert, h]
    rfl
  · intro h
    simp only [convertRawCollection, convert, h]
    rfl

/-- Witness for C3: on `sampleColl` the stored document is `2 + 3 = 5`
and the wrapped result is `postFind 5 = 50`; on `sampleCollEmpty` the
not-found signal passes through. -/
theorem findOne_applies_postFind_witness :
    ((convertRawCollection sampleColl sampleConv).findOne 2 3
        = Promise.resolved (some 50))
    ∧ ((convertRawCollection sampleCollEmpty sampleConv).findOne 2 3
        = Promise.resolved none) :=
  ⟨(findOne_applies_postFind sampleColl sampleConv 2 3).1 5 rfl,
   (findOne_applies_postFind sampleCollEmpty sampleConv 2 3).2 rfl⟩

/-- C4: for each find-and-X operation, when the underlying result
carries a document `S` the wrapped result carries `postFind S` with the
sibling fields `aux` unchanged; when it carries no document the wrapped
result carries none, the sibling fields are unchanged, and the answer is
the same for every choice of `postFind` (which is therefore never
consulted). -/
theorem modifyResult_preserves_fields
    (collection : TsRawCollection Doc0 Upd0 Rep0 Fil R Opts E IR IMR UR RR DR Aux μ)
    (t : Converter Doc0 Doc1 Upd0 Upd1 Rep0 Rep1 Fil R)
    (filter : Fil) (update : Upd1) (replacement : Rep1) (options : Opts) :
    (∀ S aux,
      collection.findOneAndDelete filter options = Promise.resolved ⟨some S, aux⟩ →
      (convertRawCollection collection t).findOneAndDelete filter options
        = Promise.resolved ⟨some (t.postFind S), aux⟩)
    ∧ (∀ aux,
      collection.findOneAndDelete filter options = Promise.resolved ⟨none, aux⟩ →
      (convertRawCollection collection t).findOneAndDelete filter options
        = Promise.resolved ⟨none, aux⟩)
    ∧ (∀ S aux,
      collection.findOneAndReplace filter (t.preReplace replacement) options
          = Promise.resolved ⟨some S, aux⟩ →
      (convertRawCollection collection t).findOneAndReplace filter replacement options
        = Promise.resolved ⟨some (t.postFind S), aux⟩)
    ∧ (∀ aux,
      collection.findOneAndReplace filter (t.preReplace replacement) options
          = Promise.resolved ⟨none, aux⟩ →
      (convertRawCollection collection t).findOneAndReplace filter replacement options
        = Promise.resolved ⟨none, aux⟩)
    ∧ (∀ S aux,
      collection.findOneAndUpdate filter (t.preUpdate update) options
          = Promise.resolved ⟨some S, aux⟩ →
      (convertRawCollection collection t).findOneAndUpdate filter update options
        = Promise.resolved ⟨some (t.postFind S), aux⟩)
    ∧ (∀ aux,
      collection.findOneAndUpdate filter (t.preUpdate update) options
          = Promise.resolved ⟨none, aux⟩ →
      (convertRawCollection collection t).findOneAndUpdate filter update options
        = Promise.resolved ⟨none, aux⟩) := by
  refine ⟨?_, ?_, ?_, ?_, ?_, ?_⟩ <;> first
    | (intro S aux h
       simp only [convertRawCollection, convert, h]
       rfl)
    | (intro aux h
       simp only [convertRawCollection, convert, h]
       rfl)

/-- Witness for C4 on `findOneAndDelete`: `sampleColl` yields document
`5` with sibling field `2`; the wrapped result is document `50` with the
sibling field still `2`.  On `sampleCollEmpty` the empty result passes
through with its sibling field intact. -/
theorem modifyResult_preserves_fields_witness :
    ((convertRawCollection sampleColl sampleConv).findOneAndDelete 2 3
        = Promise.resolved ⟨some 50, 2⟩)
    ∧ ((convertRawCollection sampleCollEmpty sampleConv).findOneAndDelete 2 3
        = Promise.resolved ⟨none, 2⟩) :=
  ⟨(modifyResult_preserves_fields sampleColl sampleConv 2 0 0 3).1 5 2 rfl,
   (modifyResult_preserves_fields sampleCollEmpty sampleConv 2 0 0 3).2.1 2 rfl⟩

/-- C5: `deleteOne` and `deleteMany` on the wrapped handle call the
underlying operation with `deleteFilter filter` and the unchanged
options and return the underlying result unchanged; with the
call-recording handle the resolved trace of each is exactly one call,
carrying the rewritten filter. -/
theorem delete_applies_deleteFilter
    (collection : TsRawCollection Doc0 Upd0 Rep0 Fil R Opts E IR IMR UR RR DR Aux μ)
    (t : Converter Doc0 Doc1 Upd0 Upd1 Rep0 Rep1 Fil R)
    (filter : Fil) (options : Opts) :
    ((convertRawCollection collection t).deleteOne filter options
        = collection.deleteOne (t.deleteFilter filter) options)
    ∧ ((convertRawCollection collection t).deleteMany filter options
        = collection.deleteMany (t.deleteFilter filter) options)
    ∧ ((convertRawCollection (recorderColl Doc0 Upd0 Rep0 Fil R Opts) t).deleteOne
          filter options = Promise.resolved [(t.deleteFilter filter, options)])
    ∧ ((convertRawCollection (recorderColl Doc0 Upd0 Rep0 Fil R Opts) t).deleteMany
          filter options = Promise.resolved [(t.deleteFilter filter, options)]) :=
  ⟨rfl, rfl, rfl, rfl⟩

/-- C6: the wrapped `find` cursor is the underlying cursor mapped
through `postFind` position by position: producing the element at
position `n` consults exactly the underlying element at position `n` and
applies `postFind` at most once, and consuming the first `k` positions
yields exactly `postFind` mapped over the first `k` underlying
positions — at most `k` underlying documents produced and at most `k`
applications of `postFind`, in the original order. -/
theorem find_maps_postFind_lazily
    (collection : TsRawCollection Doc0 Upd0 Rep0 Fil R Opts E IR IMR UR RR DR Aux μ)
    (t : Converter Doc0 Doc1 Upd0 Upd1 Rep0 Rep1 Fil R)
    (filter : Fil) (options : Option Opts) :
    (∀ n, (convertRawCollection collection t).find filter options n
        = (collection.find filter options n).map t.postFind)
    ∧ (∀ k, FindCursor.take k ((convertRawCollection collection t).find filter options)
        = (FindCursor.take k (collection.find filter options)).map
            (Option.map t.postFind))
    ∧ (∀ k, (FindCursor.take k ((convertRawCollection collection t).find filter
          options)).length = k) := by
  refine ⟨fun n => rfl, fun k => ?_, fun k => ?_⟩
  · simp only [FindCursor.take, List.map_map]
    rfl
  · simp [FindCursor.take]

/-- C7: wrapping an already-wrapped handle composes the transform
pipelines in wrap order: the doubly wrapped `insertOne` delivers
`preInsert1 (preInsert2 doc)` to the underlying handle (inner layer
applied last on the way down, i.e. closest to the handle), and when the
underlying `findOne` resolves to `S` the doubly wrapped `findOne`
resolves to `postFind2 (postFind1 S)` (inner layer applied first on the
way up). -/
theorem double_wrap_composes
    (collection : TsRawCollection Doc0 Upd0 Rep0 Fil R Opts E IR IMR UR RR DR Aux μ)
    (t1 : Converter Doc0 Doc1 Upd0 Upd1 Rep0 Rep1 Fil R)
    (t2 : Converter Doc1 Doc2 Upd1 Upd2 Rep1 Rep2 Fil R)
    (doc : Doc2) (filter : Fil) (options : Opts) :
    ((convertRawCollection (convertRawCollection collection t1) t2).insertOne
        doc options
      = collection.insertOne (t1.preInsert (t2.preInsert doc)) options)
    ∧ (∀ S, collection.findOne filter options = Promise.resolved (some S) →
      (convertRawCollection (convertRawCollection collection t1) t2).findOne
          filter options
        = Promise.resolved (some (t2.postFind (t1.postFind S)))) := by
  constructor
  · rfl
  · intro S h
    simp only [convertRawCollection, convert, h]
    rfl

/-- Witness for C7: underlying stored document `5`; the doubly wrapped
`findOne` yields `postFind2 (postFind1 5) = 5 * 10 + 100 = 150`, and the
doubly wrapped `insertOne` of document `2` with options `3` delivers
`preInsert1 (preInsert2 2) = 2 * 7 + 1 = 15`, resolving to `15 + 3`. -/
theorem double_wrap_composes_witness :
    ((convertRawCollection (convertRawCollection sampleColl sampleConv)
        sampleConv2).insertOne 2 3 = Promise.resolved 18)
    ∧ ((convertRawCollection (convertRawCollection sampleColl sampleConv)
        sampleConv2).findOne 2 3 = Promise.resolved (some 150)) :=
  ⟨(double_wrap_composes sampleColl sampleConv sampleConv2 2 2 3).1,
   (double_wrap_composes sampleColl sampleConv sampleConv2 2 2 3).2 5 rfl⟩

/-- JavaScript `p.then(f)` when the callback itself may throw: the
callback's exception rejects the promise `.then` returns; a rejection of
`p` skips the callback and propagates. -/
def Promise.thenT (p : Promise E α) (f : α → Except E β) : Promise E β :=
  Except.bind p f

/-- The `insertOne` closure of the switch case at lines 142-148, under
the JavaScript exception semantics in which `preInsert` may throw:
`preInsert doc` is evaluated synchronously before the underlying call,
so its exception surfaces on the synchronous channel (the outer
`Except`) and the underlying method is never reached. -/
def wrappedInsertOneThrowing (oldMethod : Doc0 → Opts → Promise E IR)
    (preIns : Doc1 → Except E Doc0) (doc : Doc1) (options : Opts) :
    Except E (Promise E IR) :=
  (preIns doc).map (fun d => oldMethod d options)

/-- The `findOne` closure of the switch case at lines 180-187, under the
JavaScript exception semantics in which `postFind` may throw inside the
`then` callback: the callback's exception rejects the returned
promise. -/
def wrappedFindOneThrowing (oldMethod : Fil → Opts → Promise E (Option R))
    (post : R → Except E R) (filter : Fil) (options : Opts) :
    Promise E (Option R) :=
  (oldMethod filter options).thenT
    (fun result => match result with
      | some r => (post r).map some
      | none => Except.ok none)

/-- C8: failure transparency.  A rejection of the underlying deferred
operation propagates to the wrapped caller unchanged in payload through
the same deferred channel, for every intercepted operation that chains a
result rewrite (`findOne` and the three find-and-X operations) — the
wrapper installs no handler; for the operations whose result is
forwarded unchanged the wrapped call IS the underlying call on rewritten
arguments, so any rejection is returned as is.  Under the exception
semantics of a throwing transform, a `preInsert` exception surfaces
synchronously before the underlying method is consulted, and a
`postFind` exception rejects the deferred result with the same payload.
The wrap construction itself is a total function and raises nothing. -/
theorem errors_propagate_unchanged
    (collection : TsRawCollection Doc0 Upd0 Rep0 Fil R Opts E IR IMR UR RR DR Aux μ)
    (t : Converter Doc0 Doc1 Upd0 Upd1 Rep0 Rep1 Fil R)
    (filter : Fil) (doc : Doc1) (update : Upd1) (replacement : Rep1)
    (options : Opts) (e : E) :
    (collection.findOne filter options = Promise.rejected e →
      (convertRawCollection collection t).findOne filter options
        = Promise.rejected e)
    ∧ (collection.findOneAndDelete filter options = Promise.rejected e →
      (convertRawCollection collection t).findOneAndDelete filter options
        = Promise.rejected e)
    ∧ (collection.findOneAndReplace filter (t.preReplace replacement) options
          = Promise.rejected e →
      (convertRawCollection collection t).findOneAndReplace filter replacement
          options = Promise.rejected e)
    ∧ (collection.findOneAndUpdate filter (t.preUpdate update) options
          = Promise.rejected e →
      (convertRawCollection collection t).findOneAndUpdate filter update options
        = Promise.rejected e)
    ∧ ((convertRawCollection collection t).insertOne doc options
        = collection.insertOne (t.preInsert doc) options)
    ∧ ((convertRawCollection collection t).deleteOne filter options
        = collection.deleteOne (t.deleteFilter filter) options)
    ∧ (∀ preIns : Doc1 → Except E Doc0, preIns doc = Except.error e →
      wrappedInsertOneThrowing collection.insertOne preIns doc options
        = Except.error e)
    ∧ (∀ (post : R → Except E R) S, post S = Except.error e →
      collection.findOne filter options = Promise.resolved (some S) →
      wrappedFindOneThrowing collection.findOne post filter options
        = Promise.rejected e) := by
  refine ⟨?_, ?_, ?_, ?_, rfl, rfl, ?_, ?_⟩
  · intro h
    simp only [convertRawCollection, convert, h]
    rfl
  · intro h
    simp only [convertRawCollection, convert, h]
    rfl
  · intro h
    simp only [convertRawCollection, convert, h]
    rfl
  · intro h
    simp only [convertRawCollection, convert, h]
    rfl
  · intro preIns h
    simp [wrappedInsertOneThrowing, h, Except.map]
  · intro post S hpost hfind
    simp [wrappedFindOneThrowing, hfind, Promise.thenT, Promise.resolved,
      Promise.rejected, Except.bind, hpost, Except.map]

/-- Witness for C8: `sampleCollFailing` rejects every deferred call with
error code 7, and the wrapped calls reject with 7 unchanged; a throwing
`preInsert` surfaces synchronously with its own payload, and a throwing
`postFind` rejects the wrapped `findOne` with its payload. -/
theorem errors_propagate_unchanged_witness :
    ((convertRawCollection sampleCollFailing sampleConv).findOne 2 3
        = Promise.rejected 7)
    ∧ ((convertRawCollection sampleCollFailing sampleConv).findOneAndUpdate 2 4 3
        = Promise.rejected 7)
    ∧ (wrappedInsertOneThrowing sampleColl.insertOne
        (fun _ => Except.error 9) 2 3 = Except.error 9)
    ∧ (wrappedFindOneThrowing sampleColl.findOne
        (fun _ => Except.error 11) 2 3 = Promise.rejected 11) :=
  ⟨(errors_propagate_unchanged sampleCollFailing sampleConv 2 2 4 0 3 7).1 rfl,
   (errors_propagate_unchanged sampleCollFailing sampleConv 2 2 4 0 3 7).2.2.2.1 rfl,
   (errors_propagate_unchanged sampleColl sampleConv 2 2 4 0 3 9).2.2.2.2.2.2.1
     (fun _ => Except.error 9) rfl,
   (errors_propagate_unchanged sampleColl sampleConv 2 2 4 0 3 11).2.2.2.2.2.2.2
     (fun _ => Except.error 11) 5 rfl rfl⟩

/-- C9: frame property of the write rewrites.  `updateOne`,
`updateMany`, the legacy `update` alias and `findOneAndUpdate` pass the
filter and options through unchanged and rewrite only the update spec
through `preUpdate`; `replaceOne` and `findOneAndReplace` pass the
filter and options through unchanged and rewrite only the replacement
through `preReplace`.  The recorder conjuncts exhibit the exact argument
triple delivered to the underlying handle. -/
theorem update_replace_frame
    (collection : TsRawCollection Doc0 Upd0 Rep0 Fil R Opts E IR IMR UR RR DR Aux μ)
    (t : Converter Doc0 Doc1 Upd0 Upd1 Rep0 Rep1 Fil R)
    (filter : Fil) (update : Upd1) (replacement : Rep1) (options : Opts) :
    ((convertRawCollection collection t).updateOne filter update options
        = collection.updateOne filter (t.preUpdate update) options)
    ∧ ((convertRawCollection collection t).updateMany filter update options
        = collection.updateMany filter (t.preUpdate update) options)
    ∧ ((convertRawCollection collection t).update filter update options
        = collection.update filter (t.preUpdate update) options)
    ∧ ((convertRawCollection collection t).findOneAndUpdate filter update options
        = (collection.findOneAndUpdate filter (t.preUpdate update) options).then
            (convertModifyResult t.postFind))
    ∧ ((convertRawCollection collection t).replaceOne filter replacement options
        = collection.replaceOne filter (t.preReplace replacement) options)
    ∧ ((convertRawCollection collection t).findOneAndReplace filter replacement
          options
        = (collection.findOneAndReplace filter (t.preReplace replacement)
            options).then (convertModifyResult t.postFind))
    ∧ ((convertRawCollection (recorderColl Doc0 Upd0 Rep0 Fil R Opts) t).updateOne
          filter update options
        = Promise.resolved [(filter, t.preUpdate update, options)])
    ∧ ((convertRawCollection (recorderColl Doc0 Upd0 Rep0 Fil R Opts) t).replaceOne
          filter replacement options
        = Promise.resolved [(filter, t.preReplace replacement, options)]) :=
  ⟨rfl, rfl, rfl, rfl, rfl, rfl, rfl, rfl⟩

/-- C10: the legacy `remove` name is listed among the collection's
method names but is not a case of the switch: accessing `remove` on the
wrapped handle returns the underlying handle's original member
unchanged, so no `deleteFilter` rewrite can occur on that path — while
the legacy `insert` and `update` aliases ARE intercepted and rewritten
through `preInsert` and `preUpdate`. -/
theorem legacy_remove_not_intercepted
    (collection : TsRawCollection Doc0 Upd0 Rep0 Fil R Opts E IR IMR UR RR DR Aux μ)
    (t : Converter Doc0 Doc1 Upd0 Upd1 Rep0 Rep1 Fil R) :
    (proxyGet collection t "remove" = Member.other (collection.others "remove"))
    ∧ ("remove" ∈ middlewareMethods)
    ∧ ("remove" ∉ interceptedMethods)
    ∧ (proxyGet collection t "insert"
        = Member.insertF (fun docs options =>
            collection.insert (docs.map t.preInsert) options))
    ∧ (proxyGet collection t "update"
        = Member.updateF (fun filter update options =>
            collection.update filter (t.preUpdate update) options)) :=
  ⟨rfl, by decide, by decide, rfl, rfl⟩
